import Mathlib

/-!
Verification of the sensor-data sync engine (`sync_firebase.py`).

The Python program replicates time-ordered sensor samples from a paginated
HTTP source into a keyed Firebase store.  All timestamps are ISO-8601
strings and the Python code compares them with the built-in string
comparison operators, i.e. lexicographically by code point; we embed that
comparison directly as an executable function on character lists.

External collaborators (the HTTP endpoint and the Firebase store) are
modelled shallowly: the source is a function from an optional cursor to a
response, and the store is an association list with overwrite-on-set
semantics, matching `ref.child(key).set(record)`.
-/

namespace SyncFirebase

/-- Python string `<`: lexicographic comparison by code point.
Models `a < b` on the `created_at` strings in `sync_firebase.py`. -/
def tsLtChars : List Char → List Char → Bool
  | _, [] => false
  | [], _ :: _ => true
  | a :: as, b :: bs => if a < b then true else if b < a then false else tsLtChars as bs

/-- Python `a < b` on timestamp strings. -/
def tsLt (a b : String) : Bool := tsLtChars a.data b.data

/-- Python `a <= b` on timestamp strings (for a total order, `a <= b ↔ ¬ b < a`). -/
def tsLe (a b : String) : Bool := !(tsLt b a)

/-- A raw sample as returned by the API: `{created_at, value}`.  The `value`
field holds the JSON-encoded sensor payload; we model the result of
`json.loads` directly: `none` when the payload is not parseable JSON,
otherwise the parsed object as an association list of numeric fields. -/
structure RawSample where
  created_at : String
  value : Option (List (String × Int))
deriving DecidableEq

/-- A stored record: the four fields written by `save_to_firebase`. -/
structure SensorRecord where
  created_at : String
  temperature : Int
  humidity : Int
  soil : Int
deriving DecidableEq

/-- Python dict field access on a parsed JSON object (`none` = `KeyError`). -/
def lookupField : List (String × Int) → String → Option Int
  | [], _ => none
  | (k, v) :: rest, key => if k = key then some v else lookupField rest key

/-- The decode step inside `save_to_firebase`: `json.loads(sample['value'])`
followed by projection of the three sensor fields; `none` models the
exception raised when `value` is unparseable or a field is missing. -/
def decodeSample (sample : RawSample) : Option SensorRecord :=
  match sample.value with
  | none => none
  | some fields =>
    match lookupField fields "temperature", lookupField fields "humidity",
          lookupField fields "soil" with
    | some t, some h, some so =>
      some { created_at := sample.created_at, temperature := t, humidity := h, soil := so }
    | _, _, _ => none

/-- `sample['created_at'].replace(':', '-').replace('.', '-')`.  Since the
patterns are single characters and the replacement introduces neither of
them, the two sequential replaces equal one character-wise substitution. -/
def recordKey (created_at : String) : String :=
  ⟨created_at.data.map (fun c => if c = ':' then '-' else if c = '.' then '-' else c)⟩

/-- The Firebase subtree `/sensor_data`: one keyed entry per record. -/
abbrev Store := List (String × SensorRecord)

/-- `ref.child(key).set(record)`: overwrites the entry at `key` if present,
otherwise adds a new entry. -/
def storeSet : Store → String → SensorRecord → Store
  | [], k, v => [(k, v)]
  | (k', v') :: rest, k, v =>
    if k' = k then (k, v) :: rest else (k', v') :: storeSet rest k v

/-- Reading the entry stored at a key. -/
def storeGet : Store → String → Option SensorRecord
  | [], _ => none
  | (k', v') :: rest, k => if k' = k then some v' else storeGet rest k

/-- The keys present in the store. -/
def storeKeys (store : Store) : List String := store.map Prod.fst

/-- The body of `save_to_firebase`: iterates the sample list, decoding and
writing each record.  A decode failure raises an uncaught exception in
Python, which aborts the loop leaving the store with the writes performed
so far; we model that as result `(partial store, none)`, while a completed
run yields `(store, some saved_count)`. -/
def saveLoop (store : Store) (saved_count : Nat) : List RawSample → Store × Option Nat
  | [] => (store, some saved_count)
  | sample :: rest =>
    match decodeSample sample with
    | none => (store, none)
    | some record =>
      saveLoop (storeSet store (recordKey sample.created_at) record) (saved_count + 1) rest

/-- `save_to_firebase(data_list)` acting on a store state. -/
def save_to_firebase (store : Store) (data_list : List RawSample) : Store × Option Nat :=
  saveLoop store 0 data_list

/-- A response of `fetch_batch`: either the JSON body lacks a `data` field
(`malformed`), or it carries a `data` array of raw samples. -/
inductive Response where
  | malformed
  | page (data : List RawSample)
deriving DecidableEq

/-- The remote source: what `fetch_batch(before_timestamp)` returns for each
optional cursor.  A concrete function models one unchanged source. -/
abbrev Source := Option String → Response

/-- Why the `download_all_data` pagination loop stopped. -/
inductive ExitReason where
  | emptyData        -- `if not all_data: break`
  | stuck            -- stuck counter reached 2
  | horizon          -- `before_timestamp <= EARLIEST_DATE`
  | sourceExhausted  -- paged response malformed or with empty `data`
  | emptyFiltered    -- filtered batch empty
  | touchedHorizon   -- filtered batch smaller than the raw page
  | safetyLimit      -- `batch_count > 1000`
  | initialMalformed -- initial response lacked `data`
deriving DecidableEq

/-- One paged fetch performed by the loop: the cursor sent as
`before_created_at`, the stuck counter at the moment of the fetch, and the
response received.  (Pure instrumentation: the list of these events is
returned alongside the result so that theorems can speak about the fetches
a run performs.) -/
structure FetchEvent where
  cursor : String
  stuck : Nat
  response : Response
deriving DecidableEq

/-- Configured constants of the script. -/
def EARLIEST_DATE : String := "2025-10-01T00:00:00Z"

/-- Page size requested from the API. -/
def BATCH_LIMIT : Nat := 200

/-- The filter applied to each paged batch in `download_all_data`:
`sample["created_at"] >= EARLIEST_DATE and sample["created_at"] < before_timestamp`. -/
def inWindow (before_timestamp : String) (sample : RawSample) : Bool :=
  tsLe EARLIEST_DATE sample.created_at && tsLt sample.created_at before_timestamp

/-- The `while True` loop of `download_all_data`, one recursive call per
iteration.  Arguments mirror the Python locals `all_data`,
`previous_oldest`, `batch_count`, `stuck_count`.  Besides the final
`all_data` it returns the list of paged-fetch events and the reason the
loop stopped.  Termination: every iteration that loops again has
incremented `batch_count` and passed the `batch_count > 1000` check. -/
def syncLoop (fetch : Source) (all_data : List RawSample)
    (previous_oldest : Option String) (batch_count stuck_count : Nat) :
    List RawSample × List FetchEvent × ExitReason :=
  match all_data.getLast? with
  | none => (all_data, [], .emptyData)
  | some lastSample =>
    let before_timestamp := lastSample.created_at
    let stuck' := if some before_timestamp = previous_oldest then stuck_count + 1 else 0
    if some before_timestamp = previous_oldest ∧ 2 ≤ stuck' then
      (all_data, [], .stuck)
    else if tsLe before_timestamp EARLIEST_DATE then
      (all_data.filter (fun s => tsLe EARLIEST_DATE s.created_at), [], .horizon)
    else
      let response := fetch (some before_timestamp)
      let event : FetchEvent := ⟨before_timestamp, stuck', response⟩
      match response with
      | .malformed => (all_data, [event], .sourceExhausted)
      | .page data =>
        if data = [] then (all_data, [event], .sourceExhausted)
        else
          let filtered_batch := data.filter (inWindow before_timestamp)
          if filtered_batch = [] then (all_data, [event], .emptyFiltered)
          else
            let all_data' := all_data ++ filtered_batch
            if filtered_batch.length < data.length then (all_data', [event], .touchedHorizon)
            else if h1000 : 1000 < batch_count + 1 then (all_data', [event], .safetyLimit)
            else
              let r := syncLoop fetch all_data' (some before_timestamp) (batch_count + 1) stuck'
              (r.1, event :: r.2.1, r.2.2)
termination_by 1001 - batch_count
decreasing_by omega

/-- `download_all_data()` (Mode A collection): the initial cursor-less fetch
followed by the pagination loop with `batch_count = 1`, `stuck_count = 0`
and `previous_oldest = None`. -/
def download_all_data (fetch : Source) : List RawSample × List FetchEvent × ExitReason :=
  match fetch none with
  | .malformed => ([], [], .initialMalformed)
  | .page data => syncLoop fetch data none 1 0

/-- The accumulation loop of `download_new_data`: walk the page in order,
keeping records strictly newer than `latest_timestamp`, and return early at
the first record that is not. -/
def collectNew (latest_timestamp : String) : List RawSample → List RawSample
  | [] => []
  | sample :: rest =>
    if tsLt latest_timestamp sample.created_at then
      sample :: collectNew latest_timestamp rest
    else []

/-- `download_new_data(latest_timestamp)` (Mode B collection).  The second
component instruments the fetch requests issued (the function performs a
single cursor-less `fetch_batch()` call). -/
def download_new_data (fetch : Source) (latest_timestamp : String) :
    List RawSample × List (Option String) :=
  match fetch none with
  | .malformed => ([], [none])
  | .page data => (collectNew latest_timestamp data, [none])

/-- The Mode A branch of `main()` acting on the store: full download, then
`save_to_firebase(all_data)` when anything was collected. -/
def runModeA (fetch : Source) (store : Store) : Store :=
  let all_data := (download_all_data fetch).1
  if all_data = [] then store else (save_to_firebase store all_data).1

/-- The Mode B branch of `main()` acting on the store: incremental download
against the watermark, then `save_to_firebase(new_data)` when anything was
collected. -/
def runModeB (fetch : Source) (latest_timestamp : String) (store : Store) : Store :=
  let new_data := (download_new_data fetch latest_timestamp).1
  if new_data = [] then store else (save_to_firebase store new_data).1

/-- The value the `save_to_firebase` loop leaves under key `k` after
processing `l` (`none` when `k` is untouched): the record of the last
sample in the longest decodable prefix of `l` whose sanitized timestamp is
`k`.  This is the specification-side description of the write set. -/
def savedVal : List RawSample → String → Option SensorRecord
  | [], _ => none
  | sample :: rest, k =>
    match decodeSample sample with
    | none => none
    | some record =>
      match savedVal rest k with
      | some r => some r
      | none => if recordKey sample.created_at = k then some record else none

/-! ### Concrete fixtures used by witnesses and counterexamples -/

/-- A decodable raw sample at a given timestamp. -/
def exSample (t : String) : RawSample :=
  ⟨t, some [("temperature", 21), ("humidity", 40), ("soil", 7)]⟩

def exT : String := "2025-10-20T00:00:10Z"

def exT1 : String := "2025-10-20T00:00:11Z"

def exT2 : String := "2025-10-20T00:00:12Z"

def exT3 : String := "2025-10-20T00:00:13Z"

def exTm1 : String := "2025-10-20T00:00:09Z"

/-- The spec's boundary page `[T+3, T+2, T+1, T, T-1]`, descending. -/
def exPage : List RawSample :=
  [exSample exT3, exSample exT2, exSample exT1, exSample exT, exSample exTm1]

/-- A source that always answers with the boundary page. -/
def exPageFetch : Source := fun _ => .page exPage

/-- A source that always answers with one fixed single-sample page. -/
def exSingleFetch : Source := fun _ => .page [exSample exT1]

/-- A source that always answers with a malformed body (no `data` field). -/
def exMalformedFetch : Source := fun _ => .malformed

def exS4 : RawSample := exSample "2025-10-04T00:00:00Z"

def exS5 : RawSample := exSample "2025-10-05T00:00:00Z"

/-- A source whose paged responses repeat the same oldest timestamp: every
paged fetch returns the page `[exS4]`. -/
def exStuckFetch : Source := fun c =>
  match c with
  | none => .page [exS5]
  | some _ => .page [exS4]

def exS08 : RawSample := exSample "2025-10-08T00:00:00Z"

def exS09 : RawSample := exSample "2025-10-09T00:00:00Z"

def exS10 : RawSample := exSample "2025-10-10T00:00:00Z"

/-- A source whose paged response redundantly repeats the boundary record
`exS09` (equal to the cursor), so the strict upper bound — not the date
floor — shrinks the filtered batch. -/
def exC4Fetch : Source := fun c =>
  match c with
  | none => .page [exS10, exS09]
  | some _ => .page [exS09, exS08]

/-! ### Order lemmas for the lexicographic timestamp comparison -/

theorem tsLtChars_cons (a b : Char) (as bs : List Char) :
    tsLtChars (a :: as) (b :: bs)
      = if a < b then true else if b < a then false else tsLtChars as bs := rfl

theorem tsLtChars_irrefl : ∀ l : List Char, tsLtChars l l = false
  | [] => rfl
  | a :: as => by
      rw [tsLtChars_cons, if_neg (lt_irrefl a), if_neg (lt_irrefl a)]
      exact tsLtChars_irrefl as

theorem tsLtChars_trans : ∀ {a b c : List Char},
    tsLtChars a b = true → tsLtChars b c = true → tsLtChars a c = true
  | _, [], _, hab, _ => by simp [tsLtChars] at hab
  | _, _ :: _, [], _, hbc => by simp [tsLtChars] at hbc
  | [], _ :: _, _ :: _, _, _ => by simp [tsLtChars]
  | x :: xs, y :: ys, z :: zs, hab, hbc => by
      rw [tsLtChars_cons] at hab hbc ⊢
      rcases lt_trichotomy x y with hxy | hxy | hxy
      · rcases lt_trichotomy y z with hyz | hyz | hyz
        · exact if_pos (lt_trans hxy hyz)
        · subst hyz; exact if_pos hxy
        · rw [if_neg (lt_asymm hyz), if_pos hyz] at hbc
          exact absurd hbc (by simp)
      · subst hxy
        rw [if_neg (lt_irrefl x), if_neg (lt_irrefl x)] at hab
        rcases lt_trichotomy x z with hxz | hxz | hxz
        · exact if_pos hxz
        · subst hxz
          rw [if_neg (lt_irrefl x), if_neg (lt_irrefl x)] at hbc ⊢
          exact tsLtChars_trans hab hbc
        · rw [if_neg (lt_asymm hxz), if_pos hxz] at hbc
          exact absurd hbc (by simp)
      · rw [if_neg (lt_asymm hxy), if_pos hxy] at hab
        exact absurd hab (by simp)

theorem tsLtChars_antisymm : ∀ {a b : List Char},
    tsLtChars a b = false → tsLtChars b a = false → a = b
  | [], [], _, _ => rfl
  | [], _ :: _, hab, _ => by simp [tsLtChars] at hab
  | _ :: _, [], _, hba => by simp [tsLtChars] at hba
  | x :: xs, y :: ys, hab, hba => by
      rw [tsLtChars_cons] at hab hba
      rcases lt_trichotomy x y with hxy | hxy | hxy
      · rw [if_pos hxy] at hab; exact absurd hab (by simp)
      · subst hxy
        rw [if_neg (lt_irrefl x), if_neg (lt_irrefl x)] at hab hba
        rw [tsLtChars_antisymm hab hba]
      · rw [if_pos hxy] at hba; exact absurd hba (by simp)

theorem tsLt_irrefl (a : String) : tsLt a a = false := tsLtChars_irrefl a.data

theorem tsLt_trans {a b c : String} (hab : tsLt a b = true) (hbc : tsLt b c = true) :
    tsLt a c = true := tsLtChars_trans hab hbc

theorem tsLt_antisymm {a b : String} (hab : tsLt a b = false) (hba : tsLt b a = false) :
    a = b := by
  have h : a.data = b.data := tsLtChars_antisymm hab hba
  cases a; cases b; cases h; rfl

theorem tsLt_asymm {a b : String} (hab : tsLt a b = true) : tsLt b a = false := by
  by_contra h
  have hba : tsLt b a = true := by
    cases hh : tsLt b a
    · exact absurd hh h
    · rfl
  have := tsLt_trans hab hba
  rw [tsLt_irrefl] at this
  exact absurd this (by simp)

theorem tsLe_iff {a b : String} : tsLe a b = true ↔ tsLt b a = false := by
  unfold tsLe
  cases tsLt b a <;> simp

theorem tsLe_of_tsLt {a b : String} (h : tsLt a b = true) : tsLe a b = true :=
  tsLe_iff.mpr (tsLt_asymm h)

theorem tsLe_refl (a : String) : tsLe a a = true := tsLe_iff.mpr (tsLt_irrefl a)

theorem tsLe_trans {a b c : String} (hab : tsLe a b = true) (hbc : tsLe b c = true) :
    tsLe a c = true := by
  rw [tsLe_iff] at hab hbc ⊢
  cases hca : tsLt c a
  · rfl
  · cases hba : tsLt b a
    · cases hab' : tsLt a b
      · cases tsLt_antisymm hab' hba
        rw [hbc] at hca
        exact hca.symm
      · have := tsLt_trans hca hab'
        rw [hbc] at this
        exact this.symm
    · rw [hab] at hba
      exact hba.symm

theorem tsLe_false_iff {a b : String} : tsLe a b = false ↔ tsLt b a = true := by
  unfold tsLe
  cases tsLt b a <;> simp

/-! ### Store lemmas -/

theorem storeGet_storeSet (s : Store) (k : String) (v : SensorRecord) (k' : String) :
    storeGet (storeSet s k v) k' = if k = k' then some v else storeGet s k' := by
  induction s with
  | nil => by_cases h : k = k' <;> simp [storeSet, storeGet, h]
  | cons hd tl ih =>
    obtain ⟨a, b⟩ := hd
    by_cases hak : a = k <;> by_cases hkk' : k = k' <;> by_cases hak' : a = k' <;>
      simp_all [storeSet, storeGet]

theorem mem_storeKeys_storeSet (s : Store) (k : String) (v : SensorRecord) (k' : String) :
    k' ∈ storeKeys (storeSet s k v) ↔ k' = k ∨ k' ∈ storeKeys s := by
  induction s with
  | nil => simp [storeSet, storeKeys]
  | cons hd tl ih =>
    obtain ⟨a, b⟩ := hd
    by_cases hak : a = k
    · subst hak
      rw [storeSet, if_pos rfl]
      simp [storeKeys]
    · rw [storeSet, if_neg hak]
      simp [storeKeys] at ih ⊢
      tauto

theorem storeGet_saveLoop (l : List RawSample) (s : Store) (c : Nat) (k : String) :
    storeGet (saveLoop s c l).1 k
      = match savedVal l k with
        | some r => some r
        | none => storeGet s k := by
  induction l generalizing s c with
  | nil => rfl
  | cons sample rest ih =>
    cases hdec : decodeSample sample with
    | none => simp [saveLoop, savedVal, hdec]
    | some record =>
      simp only [saveLoop, savedVal, hdec, ih]
      cases hsv : savedVal rest k with
      | some r => rfl
      | none =>
        rw [storeGet_storeSet]
        by_cases hk : recordKey sample.created_at = k
        · simp [hk]
        · simp [hk]

theorem mem_storeKeys_saveLoop (l : List RawSample) (s : Store) (c : Nat) (k : String) :
    k ∈ storeKeys (saveLoop s c l).1 ↔ k ∈ storeKeys s ∨ (savedVal l k).isSome := by
  induction l generalizing s c with
  | nil => simp [saveLoop, savedVal]
  | cons sample rest ih =>
    cases hdec : decodeSample sample with
    | none => simp [saveLoop, savedVal, hdec]
    | some record =>
      simp only [saveLoop, savedVal, hdec]
      rw [ih, mem_storeKeys_storeSet]
      cases hsv : savedVal rest k with
      | some r => simp
      | none =>
        by_cases hk : recordKey sample.created_at = k
        · simp [hk]
        · simp [hk, Ne.symm hk]

theorem savedVal_provenance {l : List RawSample} {k : String} {r : SensorRecord}
    (h : savedVal l k = some r) : ∃ sample ∈ l, decodeSample sample = some r := by
  induction l with
  | nil => simp [savedVal] at h
  | cons sample rest ih =>
    rw [savedVal] at h
    cases hdec : decodeSample sample with
    | none => rw [hdec] at h; exact absurd h (by simp)
    | some record =>
      simp only [hdec] at h
      cases hsv : savedVal rest k with
      | some r' =>
        simp only [hsv] at h
        obtain ⟨s', hs', hd'⟩ := ih (hsv.trans (by injection h with h'; rw [h']))
        exact ⟨s', List.mem_cons_of_mem _ hs', hd'⟩
      | none =>
        simp only [hsv] at h
        by_cases hk : recordKey sample.created_at = k
        · rw [if_pos hk] at h
          injection h with h'
          exact ⟨sample, List.mem_cons_self _ _, by rw [hdec, h']⟩
        · rw [if_neg hk] at h
          exact absurd h (by simp)

theorem decodeSample_created_at {sample : RawSample} {r : SensorRecord}
    (h : decodeSample sample = some r) : r.created_at = sample.created_at := by
  unfold decodeSample at h
  cases hv : sample.value with
  | none => rw [hv] at h; exact absurd h (by simp)
  | some fields =>
    rw [hv] at h
    cases ht : lookupField fields "temperature" with
    | none => simp [ht] at h
    | some t =>
      cases hh : lookupField fields "humidity" with
      | none => simp [ht, hh] at h
      | some hu =>
        cases hs : lookupField fields "soil" with
        | none => simp [ht, hh, hs] at h
        | some so =>
          simp only [ht, hh, hs] at h
          injection h with h'
          rw [← h']

/-! ### Lemmas about the Mode B accumulation loop -/

theorem collectNew_eq_takeWhile (T : String) (l : List RawSample) :
    collectNew T l = l.takeWhile (fun s => tsLt T s.created_at) := by
  induction l with
  | nil => rfl
  | cons s rest ih =>
    cases h : tsLt T s.created_at <;> simp [collectNew, List.takeWhile_cons, h, ih]

theorem mem_of_mem_collectNew {T : String} {l : List RawSample} {s : RawSample}
    (h : s ∈ collectNew T l) : s ∈ l := by
  induction l with
  | nil => simp [collectNew] at h
  | cons x rest ih =>
    rw [collectNew] at h
    by_cases hx : tsLt T x.created_at = true
    · rw [if_pos hx] at h
      rcases List.mem_cons.mp h with h | h
      · exact h ▸ List.mem_cons_self _ _
      · exact List.mem_cons_of_mem _ (ih h)
    · rw [if_neg hx] at h
      exact absurd h (List.not_mem_nil s)

theorem collectNew_length_le (T : String) (l : List RawSample) :
    (collectNew T l).length ≤ l.length := by
  induction l with
  | nil => exact Nat.le_refl 0
  | cons x rest ih =>
    rw [collectNew]
    by_cases hx : tsLt T x.created_at = true
    · rw [if_pos hx]
      simpa using ih
    · rw [if_neg hx]
      simp

/-! ### C1 -/

/-- C1: In incremental mode (Mode B), given watermark `T`, the engine
accumulates exactly the longest prefix of the newest page whose records
have `created_at` strictly greater than `T`, stopping the scan at the
first record with `created_at <= T`; if no record of the page is newer
than `T`, the store is left untouched (zero writes).  In particular, for
the page `[T+3, T+2, T+1, T, T-1]` it collects exactly the `T+3, T+2, T+1`
samples and persists exactly the three corresponding keys. -/
theorem claim_C1_incremental_boundary
    (fetch : Source) (T : String) (data : List RawSample) (store : Store)
    (hfetch : fetch none = Response.page data) :
    (download_new_data fetch T).1 = data.takeWhile (fun s => tsLt T s.created_at) ∧
    ((∀ s ∈ data, tsLe s.created_at T = true) →
      (download_new_data fetch T).1 = [] ∧ runModeB fetch T store = store) ∧
    (download_new_data exPageFetch exT).1
      = [exSample exT3, exSample exT2, exSample exT1] ∧
    storeKeys (runModeB exPageFetch exT [])
      = [recordKey exT3, recordKey exT2, recordKey exT1] := by
  have hdl : (download_new_data fetch T).1 = collectNew T data := by
    rw [download_new_data, hfetch]
  refine ⟨?_, ?_, by decide, by decide⟩
  · rw [hdl, collectNew_eq_takeWhile]
  · intro hall
    have hempty : (download_new_data fetch T).1 = [] := by
      rw [hdl]
      cases data with
      | nil => rfl
      | cons x rest =>
        have hx := hall x (List.mem_cons_self _ _)
        rw [tsLe_iff] at hx
        simp [collectNew, hx]
    exact ⟨hempty, by simp [runModeB, hempty]⟩

/-- Witness for C1 at the boundary page: the hypothesis holds for the
concrete source and the general prefix equation follows by applying the
theorem. -/
theorem claim_C1_witness :
    exPageFetch none = Response.page exPage ∧
    (download_new_data exPageFetch exT).1
      = exPage.takeWhile (fun s => tsLt exT s.created_at) :=
  ⟨rfl, (claim_C1_incremental_boundary exPageFetch exT exPage [] rfl).1⟩

/-! ### C3 -/

/-- C3: Running Mode A (full backfill plus persistence) twice against an
unchanged source produces an identical store state: every key maps to the
same stored value after the second run as after the first, and the key
sets coincide — records are written under keys derived deterministically
from `created_at`, and same-key writes overwrite. -/
theorem claim_C3_modeA_idempotent (fetch : Source) :
    (∀ k, storeGet (runModeA fetch (runModeA fetch [])) k
            = storeGet (runModeA fetch []) k) ∧
    (∀ k, k ∈ storeKeys (runModeA fetch (runModeA fetch []))
            ↔ k ∈ storeKeys (runModeA fetch [])) := by
  simp only [runModeA]
  by_cases hl : (download_all_data fetch).1 = []
  · simp [hl]
  · simp only [if_neg hl]
    constructor
    · intro k
      rw [save_to_firebase, save_to_firebase, storeGet_saveLoop, storeGet_saveLoop]
      cases hsv : savedVal (download_all_data fetch).1 k with
      | some r => rfl
      | none => rfl
    · intro k
      rw [save_to_firebase, save_to_firebase,
        mem_storeKeys_saveLoop, mem_storeKeys_saveLoop]
      simp [storeKeys]

/-! ### C8 -/

theorem saveLoop_decode_abort (store : Store) (c : Nat) (pre : List RawSample)
    (bad : RawSample) (post : List RawSample)
    (hpre : ∀ s ∈ pre, (decodeSample s).isSome) (hbad : decodeSample bad = none) :
    saveLoop store c (pre ++ bad :: post) = ((saveLoop store c pre).1, none) := by
  induction pre generalizing store c with
  | nil => simp [saveLoop, hbad]
  | cons s rest ih =>
    have hs := hpre s (List.mem_cons_self _ _)
    cases hdec : decodeSample s with
    | none => rw [hdec] at hs; simp at hs
    | some record =>
      simp only [List.cons_append, saveLoop, hdec]
      exact ih _ _ (fun x hx => hpre x (List.mem_cons_of_mem _ hx))

/-- C8: If decoding any collected sample fails (`value` unparseable or a
sensor field missing), `save_to_firebase` aborts with the error surfaced
to the caller (result flag `none`, modelling the uncaught exception)
rather than skipping the sample and reporting success, and neither the
failing sample nor any sample after it is persisted: the store ends in
exactly the state produced by saving the decodable prefix before the
failure. -/
theorem claim_C8_decode_failure_aborts (store : Store) (pre : List RawSample)
    (bad : RawSample) (post : List RawSample)
    (hpre : ∀ s ∈ pre, (decodeSample s).isSome) (hbad : decodeSample bad = none) :
    (save_to_firebase store (pre ++ bad :: post)).2 = none ∧
    (save_to_firebase store (pre ++ bad :: post)).1 = (save_to_firebase store pre).1 := by
  rw [save_to_firebase, save_to_firebase,
    saveLoop_decode_abort store 0 pre bad post hpre hbad]
  exact ⟨rfl, rfl⟩

/-- Witness for C8: one decodable sample, then a sample whose payload is
not parseable JSON, then one more decodable sample. -/
theorem claim_C8_witness :
    (∀ s ∈ [exSample exT1], (decodeSample s).isSome) ∧
    decodeSample ⟨exT2, none⟩ = none ∧
    (save_to_firebase [] ([exSample exT1] ++ ⟨exT2, none⟩ :: [exSample exT3])).2 = none ∧
    (save_to_firebase [] ([exSample exT1] ++ ⟨exT2, none⟩ :: [exSample exT3])).1
      = (save_to_firebase [] [exSample exT1]).1 := by
  refine ⟨by decide, rfl, ?_⟩
  exact claim_C8_decode_failure_aborts [] [exSample exT1] ⟨exT2, none⟩ [exSample exT3]
    (by decide) rfl

/-! ### C10 -/

/-- C10: An incremental (Mode B) run issues exactly one page fetch — the
cursor-less one, so the outcome depends only on `fetch none` — and every
record it persists comes from that single newest page; hence at most one
page's worth of records (the batch limit, 200, when the source honours the
requested limit) can be written per run, and any record absent from the
newest page is not persisted by that run. -/
theorem claim_C10_single_fetch
    (f g : Source) (T : String) (data : List RawSample)
    (hfg : f none = g none) (hf : f none = Response.page data) :
    (download_new_data f T).2 = [none] ∧
    download_new_data f T = download_new_data g T ∧
    (∀ s ∈ (download_new_data f T).1, s ∈ data) ∧
    (download_new_data f T).1.length ≤ data.length ∧
    (data.length ≤ BATCH_LIMIT → (download_new_data f T).1.length ≤ BATCH_LIMIT) ∧
    (∀ k r, storeGet (runModeB f T []) k = some r →
      ∃ s ∈ data, decodeSample s = some r) := by
  have hdl : (download_new_data f T).1 = collectNew T data := by
    rw [download_new_data, hf]
  refine ⟨by rw [download_new_data, hf], ?_, ?_, ?_, ?_, ?_⟩
  · rw [download_new_data, download_new_data, ← hfg]
  · intro s hs
    rw [hdl] at hs
    exact mem_of_mem_collectNew hs
  · rw [hdl]
    exact collectNew_length_le T data
  · intro hlim
    rw [hdl]
    exact le_trans (collectNew_length_le T data) hlim
  · intro k r hget
    rw [runModeB] at hget
    by_cases hnd : (download_new_data f T).1 = []
    · rw [if_pos hnd] at hget
      exact absurd hget (by simp [storeGet])
    · rw [if_neg hnd, save_to_firebase, storeGet_saveLoop] at hget
      cases hsv : savedVal (download_new_data f T).1 k with
      | none => rw [hsv] at hget; exact absurd hget (by simp [storeGet])
      | some r' =>
        rw [hsv] at hget
        obtain ⟨s', hs', hd'⟩ := savedVal_provenance hsv
        refine ⟨s', ?_, ?_⟩
        · rw [hdl] at hs'
          exact mem_of_mem_collectNew hs'
        · rw [hd']
          injection hget with h'
          rw [h']

/-- Witness for C10 at the boundary page fixture. -/
theorem claim_C10_witness :
    exPageFetch none = exPageFetch none ∧
    exPageFetch none = Response.page exPage ∧
    (download_new_data exPageFetch exT).2 = [none] :=
  ⟨rfl, rfl, (claim_C10_single_fetch exPageFetch exPageFetch exT exPage rfl rfl).1⟩

/-! ### Branch equations for one iteration of the pagination loop -/

theorem bool_eq_false {b : Bool} (h : ¬ b = true) : b = false := by
  cases b
  · rfl
  · exact absurd rfl h

theorem stuckCond_iff (bt : String) (p : Option String) (sc : Nat) :
    (some bt = p ∧ 2 ≤ (if some bt = p then sc + 1 else 0)) ↔ (some bt = p ∧ 1 ≤ sc) := by
  by_cases h : some bt = p <;> simp [h]

theorem syncLoop_eq_emptyData (fetch : Source) (a : List RawSample) (p : Option String)
    (bc sc : Nat) (h : a.getLast? = none) :
    syncLoop fetch a p bc sc = (a, [], .emptyData) := by
  rw [syncLoop, h]

theorem syncLoop_eq_stuck (fetch : Source) (a : List RawSample) (p : Option String)
    (bc sc : Nat) (ls : RawSample) (h : a.getLast? = some ls)
    (hp : some ls.created_at = p) (hsc : 1 ≤ sc) :
    syncLoop fetch a p bc sc = (a, [], .stuck) := by
  conv_lhs => rw [syncLoop.eq_def]
  rw [h]
  dsimp only []
  rw [if_pos ((stuckCond_iff _ _ _).mpr ⟨hp, hsc⟩)]

theorem syncLoop_eq_horizon (fetch : Source) (a : List RawSample) (p : Option String)
    (bc sc : Nat) (ls : RawSample) (h : a.getLast? = some ls)
    (hstk : ¬(some ls.created_at = p ∧ 1 ≤ sc))
    (hhor : tsLe ls.created_at EARLIEST_DATE = true) :
    syncLoop fetch a p bc sc
      = (a.filter (fun s => tsLe EARLIEST_DATE s.created_at), [], .horizon) := by
  conv_lhs => rw [syncLoop.eq_def]
  rw [h]
  dsimp only []
  rw [if_neg (fun hc => hstk ((stuckCond_iff _ _ _).mp hc)), if_pos hhor]

theorem syncLoop_eq_malformed (fetch : Source) (a : List RawSample) (p : Option String)
    (bc sc : Nat) (ls : RawSample) (h : a.getLast? = some ls)
    (hstk : ¬(some ls.created_at = p ∧ 1 ≤ sc))
    (hhor : tsLe ls.created_at EARLIEST_DATE = false)
    (hresp : fetch (some ls.created_at) = .malformed) :
    syncLoop fetch a p bc sc
      = (a, [⟨ls.created_at, if some ls.created_at = p then sc + 1 else 0, .malformed⟩],
          .sourceExhausted) := by
  conv_lhs => rw [syncLoop.eq_def]
  rw [h]
  dsimp only []
  rw [if_neg (fun hc => hstk ((stuckCond_iff _ _ _).mp hc)),
    if_neg (by rw [hhor]; simp : ¬ tsLe ls.created_at EARLIEST_DATE = true), hresp]

theorem syncLoop_eq_emptyPage (fetch : Source) (a : List RawSample) (p : Option String)
    (bc sc : Nat) (ls : RawSample) (h : a.getLast? = some ls)
    (hstk : ¬(some ls.created_at = p ∧ 1 ≤ sc))
    (hhor : tsLe ls.created_at EARLIEST_DATE = false)
    (hresp : fetch (some ls.created_at) = .page []) :
    syncLoop fetch a p bc sc
      = (a, [⟨ls.created_at, if some ls.created_at = p then sc + 1 else 0, .page []⟩],
          .sourceExhausted) := by
  conv_lhs => rw [syncLoop.eq_def]
  rw [h]
  dsimp only []
  rw [if_neg (fun hc => hstk ((stuckCond_iff _ _ _).mp hc)),
    if_neg (by rw [hhor]; simp : ¬ tsLe ls.created_at EARLIEST_DATE = true), hresp]
  dsimp only []
  rw [if_pos rfl]

theorem syncLoop_eq_emptyFiltered (fetch : Source) (a : List RawSample) (p : Option String)
    (bc sc : Nat) (ls : RawSample) (d : List RawSample) (h : a.getLast? = some ls)
    (hstk : ¬(some ls.created_at = p ∧ 1 ≤ sc))
    (hhor : tsLe ls.created_at EARLIEST_DATE = false)
    (hresp : fetch (some ls.created_at) = .page d)
    (hdne : d ≠ [])
    (hfe : d.filter (inWindow ls.created_at) = []) :
    syncLoop fetch a p bc sc
      = (a, [⟨ls.created_at, if some ls.created_at = p then sc + 1 else 0, .page d⟩],
          .emptyFiltered) := by
  conv_lhs => rw [syncLoop.eq_def]
  rw [h]
  dsimp only []
  rw [if_neg (fun hc => hstk ((stuckCond_iff _ _ _).mp hc)),
    if_neg (by rw [hhor]; simp : ¬ tsLe ls.created_at EARLIEST_DATE = true), hresp]
  dsimp only []
  rw [if_neg hdne, if_pos hfe]

theorem syncLoop_eq_touchedHorizon (fetch : Source) (a : List RawSample) (p : Option String)
    (bc sc : Nat) (ls : RawSample) (d : List RawSample) (h : a.getLast? = some ls)
    (hstk : ¬(some ls.created_at = p ∧ 1 ≤ sc))
    (hhor : tsLe ls.created_at EARLIEST_DATE = false)
    (hresp : fetch (some ls.created_at) = .page d)
    (hfne : d.filter (inWindow ls.created_at) ≠ [])
    (hlen : (d.filter (inWindow ls.created_at)).length < d.length) :
    syncLoop fetch a p bc sc
      = (a ++ d.filter (inWindow ls.created_at),
          [⟨ls.created_at, if some ls.created_at = p then sc + 1 else 0, .page d⟩],
          .touchedHorizon) := by
  have hdne : d ≠ [] := by
    intro hd
    subst hd
    simp at hfne
  conv_lhs => rw [syncLoop.eq_def]
  rw [h]
  dsimp only []
  rw [if_neg (fun hc => hstk ((stuckCond_iff _ _ _).mp hc)),
    if_neg (by rw [hhor]; simp : ¬ tsLe ls.created_at EARLIEST_DATE = true), hresp]
  dsimp only []
  rw [if_neg hdne, if_neg hfne, if_pos hlen]

theorem syncLoop_eq_safety (fetch : Source) (a : List RawSample) (p : Option String)
    (bc sc : Nat) (ls : RawSample) (d : List RawSample) (h : a.getLast? = some ls)
    (hstk : ¬(some ls.created_at = p ∧ 1 ≤ sc))
    (hhor : tsLe ls.created_at EARLIEST_DATE = false)
    (hresp : fetch (some ls.created_at) = .page d)
    (hfne : d.filter (inWindow ls.created_at) ≠ [])
    (hlen : ¬ (d.filter (inWindow ls.created_at)).length < d.length)
    (hbc : 1000 < bc + 1) :
    syncLoop fetch a p bc sc
      = (a ++ d.filter (inWindow ls.created_at),
          [⟨ls.created_at, if some ls.created_at = p then sc + 1 else 0, .page d⟩],
          .safetyLimit) := by
  have hdne : d ≠ [] := by
    intro hd
    subst hd
    simp at hfne
  conv_lhs => rw [syncLoop.eq_def]
  rw [h]
  dsimp only []
  rw [if_neg (fun hc => hstk ((stuckCond_iff _ _ _).mp hc)),
    if_neg (by rw [hhor]; simp : ¬ tsLe ls.created_at EARLIEST_DATE = true), hresp]
  dsimp only []
  rw [if_neg hdne, if_neg hfne, if_neg hlen, dif_pos hbc]

theorem syncLoop_eq_continue (fetch : Source) (a : List RawSample) (p : Option String)
    (bc sc : Nat) (ls : RawSample) (d : List RawSample)
    (h : a.getLast? = some ls)
    (hstk : ¬(some ls.created_at = p ∧ 1 ≤ sc))
    (hhor : tsLe ls.created_at EARLIEST_DATE = false)
    (hresp : fetch (some ls.created_at) = .page d)
    (hfne : d.filter (inWindow ls.created_at) ≠ [])
    (hlen : ¬ (d.filter (inWindow ls.created_at)).length < d.length)
    (hbc : ¬ 1000 < bc + 1) :
    syncLoop fetch a p bc sc =
      ((syncLoop fetch (a ++ d.filter (inWindow ls.created_at)) (some ls.created_at)
          (bc + 1) (if some ls.created_at = p then sc + 1 else 0)).1,
        ⟨ls.created_at, if some ls.created_at = p then sc + 1 else 0, .page d⟩
          :: (syncLoop fetch (a ++ d.filter (inWindow ls.created_at)) (some ls.created_at)
          (bc + 1) (if some ls.created_at = p then sc + 1 else 0)).2.1,
        (syncLoop fetch (a ++ d.filter (inWindow ls.created_at)) (some ls.created_at)
          (bc + 1) (if some ls.created_at = p then sc + 1 else 0)).2.2) := by
  have hdne : d ≠ [] := by
    intro hd
    subst hd
    simp at hfne
  conv_lhs => rw [syncLoop.eq_def]
  rw [h]
  dsimp only []
  rw [if_neg (fun hc => hstk ((stuckCond_iff _ _ _).mp hc)),
    if_neg (by rw [hhor]; simp : ¬ tsLe ls.created_at EARLIEST_DATE = true), hresp]
  dsimp only []
  rw [if_neg hdne, if_neg hfne, if_neg hlen, dif_neg hbc]

/-! ### C6 -/

theorem syncLoop_trace_length (fetch : Source) (a : List RawSample) (p : Option String)
    (bc sc : Nat) (hbc : bc ≤ 1000) :
    (syncLoop fetch a p bc sc).2.1.length ≤ 1001 - bc := by
  induction a, p, bc, sc using syncLoop.induct fetch with
  | case1 a p bc sc h =>
    rw [syncLoop_eq_emptyData fetch a p bc sc h]
    simp
  | case2 a p bc sc ls h =>
    rename_i bt stuck' hcond
    rw [syncLoop_eq_stuck fetch a p bc sc ls h hcond.1 ((stuckCond_iff _ _ _).mp hcond).2]
    simp
  | case3 a p bc sc ls h =>
    rename_i bt stuck' hstk hhor
    rw [syncLoop_eq_horizon fetch a p bc sc ls h
      (fun hc => hstk ((stuckCond_iff _ _ _).mpr hc)) hhor]
    simp
  | case4 a p bc sc ls h =>
    rename_i bt stuck' hstk hhor resp hresp
    rw [syncLoop_eq_malformed fetch a p bc sc ls h
      (fun hc => hstk ((stuckCond_iff _ _ _).mpr hc)) (bool_eq_false hhor) hresp]
    simp only [List.length_cons, List.length_nil]
    omega
  | case5 a p bc sc ls h =>
    rename_i bt stuck' hstk hhor resp hresp
    rw [syncLoop_eq_emptyPage fetch a p bc sc ls h
      (fun hc => hstk ((stuckCond_iff _ _ _).mpr hc)) (bool_eq_false hhor) hresp]
    simp only [List.length_cons, List.length_nil]
    omega
  | case6 a p bc sc ls h =>
    rename_i bt stuck' hstk hhor resp data hresp hdne fb hfe
    rw [syncLoop_eq_emptyFiltered fetch a p bc sc ls data h
      (fun hc => hstk ((stuckCond_iff _ _ _).mpr hc)) (bool_eq_false hhor) hresp hdne hfe]
    simp only [List.length_cons, List.length_nil]
    omega
  | case7 a p bc sc ls h =>
    rename_i bt stuck' hstk hhor resp data hresp hdne fb hfne hlen
    rw [syncLoop_eq_touchedHorizon fetch a p bc sc ls data h
      (fun hc => hstk ((stuckCond_iff _ _ _).mpr hc)) (bool_eq_false hhor) hresp hfne hlen]
    simp only [List.length_cons, List.length_nil]
    omega
  | case8 a p bc sc ls h =>
    rename_i bt stuck' hstk hhor resp data hresp hdne fb hfne hlen hsafety
    rw [syncLoop_eq_safety fetch a p bc sc ls data h
      (fun hc => hstk ((stuckCond_iff _ _ _).mpr hc)) (bool_eq_false hhor) hresp hfne hlen
      hsafety]
    simp only [List.length_cons, List.length_nil]
    omega
  | case9 a p bc sc ls h =>
    rename_i bt stuck' hstk hhor resp data hresp hdne fb hfne ad hlen hsafety ih
    rw [syncLoop_eq_continue fetch a p bc sc ls data h
      (fun hc => hstk ((stuckCond_iff _ _ _).mpr hc)) (bool_eq_false hhor) hresp hfne hlen
      hsafety]
    simp only [List.length_cons]
    have hrec : (syncLoop fetch (a ++ List.filter (inWindow ls.created_at) data)
        (some ls.created_at) (bc + 1)
        (if some ls.created_at = p then sc + 1 else 0)).2.1.length ≤ 1001 - (bc + 1) :=
      ih (by omega)
    omega

/-- C6: The Mode A pagination loop terminates for every possible source
behaviour — the loop is a total function here, definable exactly because
every iteration that loops again has incremented the batch counter and
passed the `batch_count > 1000` safety valve — and in particular a full
backfill run never performs more than 1000 paged fetches. -/
theorem claim_C6_safety_valve (fetch : Source) :
    (download_all_data fetch).2.1.length ≤ 1000 := by
  rw [download_all_data]
  cases hf : fetch none with
  | malformed => simp
  | page data => simpa using syncLoop_trace_length fetch data none 1 0 (by omega)

/-! ### General list helpers -/

theorem mem_of_getLast?_eq {α : Type} {l : List α} {a : α} (h : l.getLast? = some a) :
    a ∈ l := by
  induction l with
  | nil => simp at h
  | cons x t ih =>
    cases t with
    | nil =>
      simp only [List.getLast?_singleton, Option.some.injEq] at h
      exact h ▸ List.mem_cons_self _ _
    | cons y u =>
      rw [List.getLast?_cons_cons] at h
      exact List.mem_cons_of_mem _ (ih h)

theorem length_filter_lt_of_mem_false {α : Type} {p : α → Bool} {l : List α} {x : α}
    (hx : x ∈ l) (hpx : p x = false) : (l.filter p).length < l.length := by
  induction l with
  | nil => simp at hx
  | cons y t ih =>
    rcases List.mem_cons.mp hx with rfl | hxt
    · rw [List.filter_cons, hpx]
      simp only [Bool.false_eq_true, if_false, List.length_cons]
      exact Nat.lt_succ_of_le (List.length_filter_le p t)
    · rw [List.filter_cons]
      cases hy : p y
      · simp only [Bool.false_eq_true, if_false, List.length_cons]
        exact Nat.lt_succ_of_lt (ih hxt)
      · simp only [if_true, List.length_cons]
        exact Nat.succ_lt_succ (ih hxt)

theorem filter_eq_self_of_not_lt {α : Type} {p : α → Bool} {l : List α}
    (h : ¬ (l.filter p).length < l.length) : l.filter p = l :=
  (List.filter_sublist l).eq_of_length
    (Nat.le_antisymm (List.length_filter_le p l) (Nat.le_of_not_lt h))

theorem inWindow_iff {bt : String} {s : RawSample} :
    inWindow bt s = true
      ↔ tsLe EARLIEST_DATE s.created_at = true ∧ tsLt s.created_at bt = true := by
  simp [inWindow, Bool.and_eq_true]

/-! ### C2 -/

theorem sorted_desc_last_le {ls : RawSample} {l : List RawSample}
    (hs : l.Sorted (fun a b => tsLe b.created_at a.created_at = true))
    (hl : l.getLast? = some ls) : ∀ s ∈ l, tsLe ls.created_at s.created_at = true := by
  induction l with
  | nil => simp at hl
  | cons x rest ih =>
    intro s hsmem
    cases rest with
    | nil =>
      simp only [List.getLast?_singleton, Option.some.injEq] at hl
      rcases List.mem_cons.mp hsmem with rfl | hsm
      · exact hl ▸ tsLe_refl _
      · simp at hsm
    | cons y t =>
      rw [List.getLast?_cons_cons] at hl
      have hsp := List.sorted_cons.mp hs
      rcases List.mem_cons.mp hsmem with rfl | hsm
      · exact hsp.1 ls (mem_of_getLast?_eq hl)
      · exact ih hsp.2 hl s hsm

theorem syncLoop_floor (fetch : Source) (a : List RawSample) (p : Option String)
    (bc sc : Nat)
    (hall : ∀ s ∈ a, tsLe EARLIEST_DATE s.created_at = true) :
    ∀ s ∈ (syncLoop fetch a p bc sc).1, tsLe EARLIEST_DATE s.created_at = true := by
  induction a, p, bc, sc using syncLoop.induct fetch with
  | case1 a p bc sc h =>
    rw [syncLoop_eq_emptyData fetch a p bc sc h]
    exact hall
  | case2 a p bc sc ls h =>
    rename_i bt stuck' hcond
    rw [syncLoop_eq_stuck fetch a p bc sc ls h hcond.1 ((stuckCond_iff _ _ _).mp hcond).2]
    exact hall
  | case3 a p bc sc ls h =>
    rename_i bt stuck' hstk hhor
    rw [syncLoop_eq_horizon fetch a p bc sc ls h
      (fun hc => hstk ((stuckCond_iff _ _ _).mpr hc)) hhor]
    intro s hsm
    have hsm' : s ∈ a.filter (fun s => tsLe EARLIEST_DATE s.created_at) := hsm
    exact List.of_mem_filter (p := fun s : RawSample => tsLe EARLIEST_DATE s.created_at) hsm'
  | case4 a p bc sc ls h =>
    rename_i bt stuck' hstk hhor resp hresp
    rw [syncLoop_eq_malformed fetch a p bc sc ls h
      (fun hc => hstk ((stuckCond_iff _ _ _).mpr hc)) (bool_eq_false hhor) hresp]
    exact hall
  | case5 a p bc sc ls h =>
    rename_i bt stuck' hstk hhor resp hresp
    rw [syncLoop_eq_emptyPage fetch a p bc sc ls h
      (fun hc => hstk ((stuckCond_iff _ _ _).mpr hc)) (bool_eq_false hhor) hresp]
    exact hall
  | case6 a p bc sc ls h =>
    rename_i bt stuck' hstk hhor resp data hresp hdne fb hfe
    rw [syncLoop_eq_emptyFiltered fetch a p bc sc ls data h
      (fun hc => hstk ((stuckCond_iff _ _ _).mpr hc)) (bool_eq_false hhor) hresp hdne hfe]
    exact hall
  | case7 a p bc sc ls h =>
    rename_i bt stuck' hstk hhor resp data hresp hdne fb hfne hlen
    rw [syncLoop_eq_touchedHorizon fetch a p bc sc ls data h
      (fun hc => hstk ((stuckCond_iff _ _ _).mpr hc)) (bool_eq_false hhor) hresp hfne hlen]
    intro s hsm
    rcases List.mem_append.mp hsm with hsa | hsf
    · exact hall s hsa
    · exact (inWindow_iff.mp (List.of_mem_filter hsf)).1
  | case8 a p bc sc ls h =>
    rename_i bt stuck' hstk hhor resp data hresp hdne fb hfne hlen hsafety
    rw [syncLoop_eq_safety fetch a p bc sc ls data h
      (fun hc => hstk ((stuckCond_iff _ _ _).mpr hc)) (bool_eq_false hhor) hresp hfne hlen
      hsafety]
    intro s hsm
    rcases List.mem_append.mp hsm with hsa | hsf
    · exact hall s hsa
    · exact (inWindow_iff.mp (List.of_mem_filter hsf)).1
  | case9 a p bc sc ls h =>
    rename_i bt stuck' hstk hhor resp data hresp hdne fb hfne ad hlen hsafety ih
    rw [syncLoop_eq_continue fetch a p bc sc ls data h
      (fun hc => hstk ((stuckCond_iff _ _ _).mpr hc)) (bool_eq_false hhor) hresp hfne hlen
      hsafety]
    refine ih ?_
    intro s hsm
    rcases List.mem_append.mp hsm with hsa | hsf
    · exact hall s hsa
    · exact (inWindow_iff.mp (List.of_mem_filter hsf)).1

/-- C2: Date floor invariant — for every source whose pages are ordered
descending by `created_at`, every record collected by a Mode A run and
every record it stores satisfies `created_at >= EARLIEST_DATE`; no record
below the floor is ever stored, including records from the initial
unfiltered page fetch. -/
theorem claim_C2_date_floor (fetch : Source)
    (hdesc : ∀ c data, fetch c = Response.page data →
      data.Sorted (fun a b => tsLe b.created_at a.created_at = true)) :
    (∀ s ∈ (download_all_data fetch).1, tsLe EARLIEST_DATE s.created_at = true) ∧
    (∀ k r, storeGet (runModeA fetch []) k = some r →
      tsLe EARLIEST_DATE r.created_at = true) := by
  have hlist : ∀ s ∈ (download_all_data fetch).1, tsLe EARLIEST_DATE s.created_at = true := by
    cases hf : fetch none with
    | malformed =>
      have hdl : download_all_data fetch = ([], [], .initialMalformed) := by
        rw [download_all_data, hf]
      rw [hdl]
      simp
    | page data =>
      have hdl : download_all_data fetch = syncLoop fetch data none 1 0 := by
        rw [download_all_data, hf]
      rw [hdl]
      cases hlast : data.getLast? with
      | none =>
        rw [List.getLast?_eq_none_iff] at hlast
        subst hlast
        exact syncLoop_floor fetch [] none 1 0 (by simp)
      | some ls =>
        by_cases hhor : tsLe ls.created_at EARLIEST_DATE = true
        · rw [syncLoop_eq_horizon fetch data none 1 0 ls hlast
            (fun hc => Option.noConfusion hc.1) hhor]
          intro s hsm
          have hsm' : s ∈ data.filter (fun s => tsLe EARLIEST_DATE s.created_at) := hsm
          exact List.of_mem_filter (p := fun s : RawSample => tsLe EARLIEST_DATE s.created_at) hsm'
        · refine syncLoop_floor fetch data none 1 0 ?_
          intro s hsm
          have hlt : tsLt EARLIEST_DATE ls.created_at = true := by
            rw [← tsLe_false_iff]
            exact bool_eq_false hhor
          exact tsLe_trans (tsLe_of_tsLt hlt)
            (sorted_desc_last_le (hdesc none data hf) hlast s hsm)
  refine ⟨hlist, ?_⟩
  intro k r hget
  simp only [runModeA] at hget
  by_cases hl : (download_all_data fetch).1 = []
  · rw [if_pos hl] at hget
    simp [storeGet] at hget
  · rw [if_neg hl, save_to_firebase, storeGet_saveLoop] at hget
    cases hsv : savedVal (download_all_data fetch).1 k with
    | none =>
      rw [hsv] at hget
      simp [storeGet] at hget
    | some r' =>
      rw [hsv] at hget
      obtain ⟨sample, hmem, hdec⟩ := savedVal_provenance hsv
      have hca := decodeSample_created_at hdec
      have : r' = r := by injection hget
      subst this
      rw [hca]
      exact hlist sample hmem

/-- Witness for C2: a constant single-page source; its only page is
trivially sorted descending, and the theorem applies. -/
theorem claim_C2_witness :
    (∀ c data, exSingleFetch c = Response.page data →
      data.Sorted (fun a b => tsLe b.created_at a.created_at = true)) ∧
    (∀ s ∈ (download_all_data exSingleFetch).1, tsLe EARLIEST_DATE s.created_at = true) := by
  have hdesc : ∀ c data, exSingleFetch c = Response.page data →
      data.Sorted (fun a b => tsLe b.created_at a.created_at = true) := by
    intro c data h
    injection h with h'
    subst h'
    simp
  exact ⟨hdesc, (claim_C2_date_floor exSingleFetch hdesc).1⟩

/-! ### C7 -/

/-- C7: In Mode A, a paged fetch whose response lacks a `data` field or has
an empty `data` array is treated as normal termination, not failure: the
loop stops collecting (exactly this one further fetch happens, with exit
reason `sourceExhausted`), returns everything gathered so far unchanged,
and persisting that result is the same as persisting the gathered records
— the run proceeds to `save_to_firebase`. -/
theorem claim_C7_malformed_page_normal_termination
    (fetch : Source) (all_data : List RawSample) (prev : Option String)
    (bc sc : Nat) (lastS : RawSample) (store : Store)
    (hlast : all_data.getLast? = some lastS)
    (hstk : ¬(some lastS.created_at = prev ∧ 1 ≤ sc))
    (hhor : tsLe lastS.created_at EARLIEST_DATE = false)
    (hresp : fetch (some lastS.created_at) = Response.malformed ∨
      fetch (some lastS.created_at) = Response.page []) :
    (syncLoop fetch all_data prev bc sc).1 = all_data ∧
    (syncLoop fetch all_data prev bc sc).2.2 = ExitReason.sourceExhausted ∧
    (syncLoop fetch all_data prev bc sc).2.1.length = 1 ∧
    save_to_firebase store (syncLoop fetch all_data prev bc sc).1
      = save_to_firebase store all_data := by
  rcases hresp with hresp | hresp
  · rw [syncLoop_eq_malformed fetch all_data prev bc sc lastS hlast hstk hhor hresp]
    exact ⟨rfl, rfl, rfl, rfl⟩
  · rw [syncLoop_eq_emptyPage fetch all_data prev bc sc lastS hlast hstk hhor hresp]
    exact ⟨rfl, rfl, rfl, rfl⟩

/-- Witness for C7: one gathered sample, then a malformed paged response. -/
theorem claim_C7_witness :
    [exSample exT1].getLast? = some (exSample exT1) ∧
    tsLe (exSample exT1).created_at EARLIEST_DATE = false ∧
    (syncLoop exMalformedFetch [exSample exT1] none 1 0).1 = [exSample exT1] ∧
    (syncLoop exMalformedFetch [exSample exT1] none 1 0).2.2 = ExitReason.sourceExhausted := by
  have h := claim_C7_malformed_page_normal_termination exMalformedFetch
    [exSample exT1] none 1 0 (exSample exT1) [] rfl
    (fun hc => Option.noConfusion hc.1) (by decide) (Or.inl rfl)
  exact ⟨rfl, by decide, h.1, h.2.1⟩

/-! ### Trace anatomy: the cursor of a fetch event -/

theorem syncLoop_trace_head (fetch : Source) (a : List RawSample) (p : Option String)
    (bc sc : Nat) (e : FetchEvent) (tr : List FetchEvent)
    (h : (syncLoop fetch a p bc sc).2.1 = e :: tr) :
    ∃ ls, a.getLast? = some ls ∧ e.cursor = ls.created_at ∧
      e.response = fetch (some ls.created_at) := by
  cases hlast : a.getLast? with
  | none =>
    rw [syncLoop_eq_emptyData fetch a p bc sc hlast] at h
    exact absurd h (by simp)
  | some ls =>
    refine ⟨ls, rfl, ?_⟩
    by_cases hstk : some ls.created_at = p ∧ 1 ≤ sc
    · rw [syncLoop_eq_stuck fetch a p bc sc ls hlast hstk.1 hstk.2] at h
      exact absurd h (by simp)
    · by_cases hhor : tsLe ls.created_at EARLIEST_DATE = true
      · rw [syncLoop_eq_horizon fetch a p bc sc ls hlast hstk hhor] at h
        exact absurd h (by simp)
      · have hhor' := bool_eq_false hhor
        cases hresp : fetch (some ls.created_at) with
        | malformed =>
          rw [syncLoop_eq_malformed fetch a p bc sc ls hlast hstk hhor' hresp] at h
          simp only [List.cons.injEq] at h
          rw [← h.1]
          exact ⟨rfl, rfl⟩
        | page d =>
          cases hd : d with
          | nil =>
            rw [hd] at hresp
            rw [syncLoop_eq_emptyPage fetch a p bc sc ls hlast hstk hhor' hresp] at h
            simp only [List.cons.injEq] at h
            rw [← h.1]
            exact ⟨rfl, rfl⟩
          | cons x xs =>
            rw [hd] at hresp
            by_cases hfe : (x :: xs).filter (inWindow ls.created_at) = []
            · rw [syncLoop_eq_emptyFiltered fetch a p bc sc ls (x :: xs) hlast hstk hhor'
                hresp (by simp) hfe] at h
              simp only [List.cons.injEq] at h
              rw [← h.1]
              exact ⟨rfl, rfl⟩
            · by_cases hlen : ((x :: xs).filter (inWindow ls.created_at)).length
                  < (x :: xs).length
              · rw [syncLoop_eq_touchedHorizon fetch a p bc sc ls (x :: xs) hlast hstk hhor'
                  hresp hfe hlen] at h
                simp only [List.cons.injEq] at h
                rw [← h.1]
                exact ⟨rfl, rfl⟩
              · by_cases hbc : 1000 < bc + 1
                · rw [syncLoop_eq_safety fetch a p bc sc ls (x :: xs) hlast hstk hhor'
                    hresp hfe hlen hbc] at h
                  simp only [List.cons.injEq] at h
                  rw [← h.1]
                  exact ⟨rfl, rfl⟩
                · rw [syncLoop_eq_continue fetch a p bc sc ls (x :: xs) hlast hstk hhor'
                    hresp hfe hlen hbc] at h
                  simp only [List.cons.injEq] at h
                  rw [← h.1]
                  exact ⟨rfl, rfl⟩

/-- If a fetch returns a page whose oldest record is not strictly older
than the cursor that requested it, the loop performs no further fetch:
that event is the last one. -/
theorem syncLoop_no_advance (fetch : Source) (a : List RawSample) (p : Option String)
    (bc sc : Nat) (e : FetchEvent) (tr : List FetchEvent) (d : List RawSample)
    (s : RawSample)
    (h : (syncLoop fetch a p bc sc).2.1 = e :: tr)
    (hresp : e.response = Response.page d) (hlastd : d.getLast? = some s)
    (hlt : tsLt s.created_at e.cursor = false) : tr = [] := by
  obtain ⟨ls, hlast, hcur, hrespf⟩ := syncLoop_trace_head fetch a p bc sc e tr h
  have hfd : fetch (some ls.created_at) = Response.page d := by rw [← hrespf, hresp]
  rw [hcur] at hlt
  have hsw : inWindow ls.created_at s = false := by
    cases hw : inWindow ls.created_at s
    · rfl
    · have h2 := (inWindow_iff.mp hw).2
      rw [hlt] at h2
      exact absurd h2 (by simp)
  have hdne : d ≠ [] := by
    intro h0
    subst h0
    simp at hlastd
  have hflt : (d.filter (inWindow ls.created_at)).length < d.length :=
    length_filter_lt_of_mem_false (mem_of_getLast?_eq hlastd) hsw
  by_cases hstk : some ls.created_at = p ∧ 1 ≤ sc
  · rw [syncLoop_eq_stuck fetch a p bc sc ls hlast hstk.1 hstk.2] at h
    exact absurd h (by simp)
  · by_cases hhor : tsLe ls.created_at EARLIEST_DATE = true
    · rw [syncLoop_eq_horizon fetch a p bc sc ls hlast hstk hhor] at h
      exact absurd h (by simp)
    · by_cases hfe : d.filter (inWindow ls.created_at) = []
      · rw [syncLoop_eq_emptyFiltered fetch a p bc sc ls d hlast hstk
          (bool_eq_false hhor) hfd hdne hfe] at h
        simp only [List.cons.injEq] at h
        exact h.2.symm
      · rw [syncLoop_eq_touchedHorizon fetch a p bc sc ls d hlast hstk
          (bool_eq_false hhor) hfd hfe hflt] at h
        simp only [List.cons.injEq] at h
        exact h.2.symm

/-! ### C9 -/

theorem inv_ne_prev {p : Option String} {a : List RawSample} {ls : RawSample}
    (hinv : p = none ∨
      ∃ q ls0, p = some q ∧ a.getLast? = some ls0 ∧ tsLt ls0.created_at q = true)
    (h : a.getLast? = some ls) : ¬ some ls.created_at = p := by
  rcases hinv with hp | ⟨q, ls0, hp, hl0, hlt⟩
  · subst hp
    simp
  · subst hp
    intro hq
    injection hq with hq'
    rw [h] at hl0
    injection hl0 with hl0'
    rw [← hl0', ← hq', tsLt_irrefl] at hlt
    exact absurd hlt (by simp)

theorem syncLoop_no_stuck (fetch : Source) (a : List RawSample) (p : Option String)
    (bc sc : Nat)
    (hinv : (p = none ∨
        ∃ q ls0, p = some q ∧ a.getLast? = some ls0 ∧ tsLt ls0.created_at q = true)
      ∧ sc = 0) :
    (syncLoop fetch a p bc sc).2.2 ≠ ExitReason.stuck ∧
    (∀ e ∈ (syncLoop fetch a p bc sc).2.1, e.stuck = 0) ∧
    (syncLoop fetch a p bc sc).2.1.Chain' (fun x y => tsLt y.cursor x.cursor = true) := by
  induction a, p, bc, sc using syncLoop.induct fetch with
  | case1 a p bc sc h =>
    rw [syncLoop_eq_emptyData fetch a p bc sc h]
    exact ⟨by simp, by simp, by simp⟩
  | case2 a p bc sc ls h =>
    rename_i bt stuck' hcond
    exact absurd hcond.1 (inv_ne_prev hinv.1 h)
  | case3 a p bc sc ls h =>
    rename_i bt stuck' hstk hhor
    rw [syncLoop_eq_horizon fetch a p bc sc ls h
      (fun hc => hstk ((stuckCond_iff _ _ _).mpr hc)) hhor]
    exact ⟨by simp, by simp, by simp⟩
  | case4 a p bc sc ls h =>
    rename_i bt stuck' hstk hhor resp hresp
    rw [syncLoop_eq_malformed fetch a p bc sc ls h
      (fun hc => hstk ((stuckCond_iff _ _ _).mpr hc)) (bool_eq_false hhor) hresp]
    have h0 : (if some ls.created_at = p then sc + 1 else 0) = 0 :=
      if_neg (inv_ne_prev hinv.1 h)
    refine ⟨by simp, ?_, by simp⟩
    intro e he
    simp only [List.mem_singleton] at he
    rw [he, h0]
  | case5 a p bc sc ls h =>
    rename_i bt stuck' hstk hhor resp hresp
    rw [syncLoop_eq_emptyPage fetch a p bc sc ls h
      (fun hc => hstk ((stuckCond_iff _ _ _).mpr hc)) (bool_eq_false hhor) hresp]
    have h0 : (if some ls.created_at = p then sc + 1 else 0) = 0 :=
      if_neg (inv_ne_prev hinv.1 h)
    refine ⟨by simp, ?_, by simp⟩
    intro e he
    simp only [List.mem_singleton] at he
    rw [he, h0]
  | case6 a p bc sc ls h =>
    rename_i bt stuck' hstk hhor resp data hresp hdne fb hfe
    rw [syncLoop_eq_emptyFiltered fetch a p bc sc ls data h
      (fun hc => hstk ((stuckCond_iff _ _ _).mpr hc)) (bool_eq_false hhor) hresp hdne hfe]
    have h0 : (if some ls.created_at = p then sc + 1 else 0) = 0 :=
      if_neg (inv_ne_prev hinv.1 h)
    refine ⟨by simp, ?_, by simp⟩
    intro e he
    simp only [List.mem_singleton] at he
    rw [he, h0]
  | case7 a p bc sc ls h =>
    rename_i bt stuck' hstk hhor resp data hresp hdne fb hfne hlen
    rw [syncLoop_eq_touchedHorizon fetch a p bc sc ls data h
      (fun hc => hstk ((stuckCond_iff _ _ _).mpr hc)) (bool_eq_false hhor) hresp hfne hlen]
    have h0 : (if some ls.created_at = p then sc + 1 else 0) = 0 :=
      if_neg (inv_ne_prev hinv.1 h)
    refine ⟨by simp, ?_, by simp⟩
    intro e he
    simp only [List.mem_singleton] at he
    rw [he, h0]
  | case8 a p bc sc ls h =>
    rename_i bt stuck' hstk hhor resp data hresp hdne fb hfne hlen hsafety
    rw [syncLoop_eq_safety fetch a p bc sc ls data h
      (fun hc => hstk ((stuckCond_iff _ _ _).mpr hc)) (bool_eq_false hhor) hresp hfne hlen
      hsafety]
    have h0 : (if some ls.created_at = p then sc + 1 else 0) = 0 :=
      if_neg (inv_ne_prev hinv.1 h)
    refine ⟨by simp, ?_, by simp⟩
    intro e he
    simp only [List.mem_singleton] at he
    rw [he, h0]
  | case9 a p bc sc ls h =>
    rename_i bt stuck' hstk hhor resp data hresp hdne fb hfne ad hlen hsafety ih
    have hne : ¬ some ls.created_at = p := inv_ne_prev hinv.1 h
    have h0 : (if some ls.created_at = p then sc + 1 else 0) = 0 := if_neg hne
    have hfbne : data.filter (inWindow ls.created_at) ≠ [] := hfne
    obtain ⟨lastfb, hlastfb⟩ :
        ∃ x, (data.filter (inWindow ls.created_at)).getLast? = some x := by
      cases hx : (data.filter (inWindow ls.created_at)).getLast? with
      | none => exact absurd (List.getLast?_eq_none_iff.mp hx) hfbne
      | some x => exact ⟨x, rfl⟩
    have hlastad : (a ++ data.filter (inWindow ls.created_at)).getLast? = some lastfb := by
      rw [List.getLast?_append_of_ne_nil a hfbne, hlastfb]
    have hltlast : tsLt lastfb.created_at ls.created_at = true :=
      (inWindow_iff.mp (List.of_mem_filter (mem_of_getLast?_eq hlastfb))).2
    have hinv2 : ((some ls.created_at = none ∨
        ∃ q ls0, some ls.created_at = some q ∧
          (a ++ data.filter (inWindow ls.created_at)).getLast? = some ls0 ∧
          tsLt ls0.created_at q = true)
        ∧ (if some ls.created_at = p then sc + 1 else 0) = 0) :=
      ⟨Or.inr ⟨ls.created_at, lastfb, rfl, hlastad, hltlast⟩, h0⟩
    have hIH := ih hinv2
    rw [syncLoop_eq_continue fetch a p bc sc ls data h
      (fun hc => hstk ((stuckCond_iff _ _ _).mpr hc)) (bool_eq_false hhor) hresp hfne hlen
      hsafety]
    refine ⟨hIH.1, ?_, ?_⟩
    · intro e he
      rcases List.mem_cons.mp he with rfl | he'
      · exact h0
      · exact hIH.2.1 e he'
    · rw [List.chain'_cons']
      refine ⟨?_, hIH.2.2⟩
      intro y hy
      cases hh : (syncLoop fetch (a ++ data.filter (inWindow ls.created_at))
          (some ls.created_at) (bc + 1)
          (if some ls.created_at = p then sc + 1 else 0)).2.1 with
      | nil =>
        rw [hh] at hy
        simp at hy
      | cons e2 tl =>
        rw [hh] at hy
        simp only [List.head?_cons, Option.mem_def, Option.some.injEq] at hy
        obtain ⟨ls2, hls2, hcur2, _⟩ := syncLoop_trace_head fetch _ _ _ _ e2 tl hh
        rw [hlastad] at hls2
        injection hls2 with hls2'
        rw [← hy, hcur2, ← hls2']
        exact hltlast

/-- C9: In the Mode A pagination loop every iteration that continues
strictly decreases the cursor, hence the cursor never equals
`previous_oldest`: the stuck counter is 0 at every fetch, and the loop
never exits through the stuck-detection branch. -/
theorem claim_C9_no_stuck_exit (fetch : Source) :
    (download_all_data fetch).2.2 ≠ ExitReason.stuck ∧
    (∀ e ∈ (download_all_data fetch).2.1, e.stuck = 0) ∧
    (download_all_data fetch).2.1.Chain' (fun x y => tsLt y.cursor x.cursor = true) := by
  cases hf : fetch none with
  | malformed =>
    have hdl : download_all_data fetch = ([], [], .initialMalformed) := by
      rw [download_all_data, hf]
    rw [hdl]
    exact ⟨by simp, by simp, by simp⟩
  | page data =>
    have hdl : download_all_data fetch = syncLoop fetch data none 1 0 := by
      rw [download_all_data, hf]
    rw [hdl]
    exact syncLoop_no_stuck fetch data none 1 0 ⟨Or.inl rfl, rfl⟩

/-! ### C5 -/

theorem syncLoop_consecutive_same_oldest (fetch : Source) (a : List RawSample)
    (p : Option String) (bc sc : Nat) :
    ∀ (i : Nat) (e1 e2 : FetchEvent) (d1 d2 : List RawSample) (s1 s2 : RawSample),
      (syncLoop fetch a p bc sc).2.1[i]? = some e1 →
      (syncLoop fetch a p bc sc).2.1[i + 1]? = some e2 →
      e1.response = Response.page d1 → e2.response = Response.page d2 →
      d1.getLast? = some s1 → d2.getLast? = some s2 →
      s1.created_at = s2.created_at →
      (syncLoop fetch a p bc sc).2.1.length ≤ i + 2 := by
  induction a, p, bc, sc using syncLoop.induct fetch with
  | case1 a p bc sc h =>
    intro i e1 e2 d1 d2 s1 s2 h1 h2 hr1 hr2 hl1 hl2 hceq
    have htr : (syncLoop fetch a p bc sc).2.1 = [] := by
      rw [syncLoop_eq_emptyData fetch a p bc sc h]
    rw [htr] at h2
    simp at h2
  | case2 a p bc sc ls h =>
    rename_i bt stuck' hcond
    intro i e1 e2 d1 d2 s1 s2 h1 h2 hr1 hr2 hl1 hl2 hceq
    have htr : (syncLoop fetch a p bc sc).2.1 = [] := by
      rw [syncLoop_eq_stuck fetch a p bc sc ls h hcond.1 ((stuckCond_iff _ _ _).mp hcond).2]
    rw [htr] at h2
    simp at h2
  | case3 a p bc sc ls h =>
    rename_i bt stuck' hstk hhor
    intro i e1 e2 d1 d2 s1 s2 h1 h2 hr1 hr2 hl1 hl2 hceq
    have htr : (syncLoop fetch a p bc sc).2.1 = [] := by
      rw [syncLoop_eq_horizon fetch a p bc sc ls h
        (fun hc => hstk ((stuckCond_iff _ _ _).mpr hc)) hhor]
    rw [htr] at h2
    simp at h2
  | case4 a p bc sc ls h =>
    rename_i bt stuck' hstk hhor resp hresp0
    intro i e1 e2 d1 d2 s1 s2 h1 h2 hr1 hr2 hl1 hl2 hceq
    have htr : (syncLoop fetch a p bc sc).2.1
        = [⟨ls.created_at, if some ls.created_at = p then sc + 1 else 0, .malformed⟩] := by
      rw [syncLoop_eq_malformed fetch a p bc sc ls h
        (fun hc => hstk ((stuckCond_iff _ _ _).mpr hc)) (bool_eq_false hhor) hresp0]
    rw [htr] at h2
    rw [List.getElem?_cons_succ] at h2
    simp at h2
  | case5 a p bc sc ls h =>
    rename_i bt stuck' hstk hhor resp hresp0
    intro i e1 e2 d1 d2 s1 s2 h1 h2 hr1 hr2 hl1 hl2 hceq
    have htr : (syncLoop fetch a p bc sc).2.1
        = [⟨ls.created_at, if some ls.created_at = p then sc + 1 else 0, .page []⟩] := by
      rw [syncLoop_eq_emptyPage fetch a p bc sc ls h
        (fun hc => hstk ((stuckCond_iff _ _ _).mpr hc)) (bool_eq_false hhor) hresp0]
    rw [htr] at h2
    rw [List.getElem?_cons_succ] at h2
    simp at h2
  | case6 a p bc sc ls h =>
    rename_i bt stuck' hstk hhor resp data hresp0 hdne fb hfe
    intro i e1 e2 d1 d2 s1 s2 h1 h2 hr1 hr2 hl1 hl2 hceq
    have htr : (syncLoop fetch a p bc sc).2.1
        = [⟨ls.created_at, if some ls.created_at = p then sc + 1 else 0, .page data⟩] := by
      rw [syncLoop_eq_emptyFiltered fetch a p bc sc ls data h
        (fun hc => hstk ((stuckCond_iff _ _ _).mpr hc)) (bool_eq_false hhor) hresp0 hdne hfe]
    rw [htr] at h2
    rw [List.getElem?_cons_succ] at h2
    simp at h2
  | case7 a p bc sc ls h =>
    rename_i bt stuck' hstk hhor resp data hresp0 hdne fb hfne hlen
    intro i e1 e2 d1 d2 s1 s2 h1 h2 hr1 hr2 hl1 hl2 hceq
    have htr : (syncLoop fetch a p bc sc).2.1
        = [⟨ls.created_at, if some ls.created_at = p then sc + 1 else 0, .page data⟩] := by
      rw [syncLoop_eq_touchedHorizon fetch a p bc sc ls data h
        (fun hc => hstk ((stuckCond_iff _ _ _).mpr hc)) (bool_eq_false hhor) hresp0 hfne hlen]
    rw [htr] at h2
    rw [List.getElem?_cons_succ] at h2
    simp at h2
  | case8 a p bc sc ls h =>
    rename_i bt stuck' hstk hhor resp data hresp0 hdne fb hfne hlen hsafety
    intro i e1 e2 d1 d2 s1 s2 h1 h2 hr1 hr2 hl1 hl2 hceq
    have htr : (syncLoop fetch a p bc sc).2.1
        = [⟨ls.created_at, if some ls.created_at = p then sc + 1 else 0, .page data⟩] := by
      rw [syncLoop_eq_safety fetch a p bc sc ls data h
        (fun hc => hstk ((stuckCond_iff _ _ _).mpr hc)) (bool_eq_false hhor) hresp0 hfne hlen
        hsafety]
    rw [htr] at h2
    rw [List.getElem?_cons_succ] at h2
    simp at h2
  | case9 a p bc sc ls h =>
    rename_i bt stuck' hstk hhor resp data hresp0 hdne fb hfne ad hlen hsafety ih
    intro i e1 e2 d1 d2 s1 s2 h1 h2 hr1 hr2 hl1 hl2 hceq
    have htr : (syncLoop fetch a p bc sc).2.1
        = ⟨ls.created_at, if some ls.created_at = p then sc + 1 else 0, .page data⟩
          :: (syncLoop fetch (a ++ data.filter (inWindow ls.created_at))
              (some ls.created_at) (bc + 1)
              (if some ls.created_at = p then sc + 1 else 0)).2.1 := by
      rw [syncLoop_eq_continue fetch a p bc sc ls data h
        (fun hc => hstk ((stuckCond_iff _ _ _).mpr hc)) (bool_eq_false hhor) hresp0 hfne hlen
        hsafety]
    rw [htr] at h1 h2 ⊢
    cases i with
    | zero =>
      rw [List.getElem?_cons_zero] at h1
      injection h1 with h1'
      rw [List.getElem?_cons_succ] at h2
      cases hh : (syncLoop fetch (a ++ data.filter (inWindow ls.created_at))
          (some ls.created_at) (bc + 1)
          (if some ls.created_at = p then sc + 1 else 0)).2.1 with
      | nil =>
        rw [hh] at h2
        simp at h2
      | cons e2b tl =>
        rw [hh] at h2
        rw [List.getElem?_cons_zero] at h2
        injection h2 with h2b
        have hd1 : data = d1 := by
          have hx : Response.page data = Response.page d1 := by
            rw [← h1'] at hr1
            exact hr1
          injection hx
        have hfull : data.filter (inWindow ls.created_at) = data :=
          filter_eq_self_of_not_lt hlen
        have hfne2 : List.filter (inWindow ls.created_at) data ≠ [] := hfne
        have hlastad2 : (a ++ data.filter (inWindow ls.created_at)).getLast? = some s1 := by
          rw [List.getLast?_append_of_ne_nil a hfne2, hfull, hd1]
          exact hl1
        obtain ⟨ls2, hls2, hcur2, _⟩ := syncLoop_trace_head fetch _ _ _ _ e2b tl hh
        rw [hlastad2] at hls2
        injection hls2 with hls2b
        have hcur : e2.cursor = s2.created_at := by
          rw [← h2b, hcur2, ← hls2b, hceq]
        have htl : tl = [] := by
          refine syncLoop_no_advance fetch _ _ _ _ e2b tl d2 s2 hh ?_ hl2 ?_
          · rw [h2b]
            exact hr2
          · rw [h2b, hcur, tsLt_irrefl]
        rw [htl]
        simp
    | succ j =>
      rw [List.getElem?_cons_succ] at h1 h2
      have hrec : (syncLoop fetch (a ++ data.filter (inWindow ls.created_at))
          (some ls.created_at) (bc + 1)
          (if some ls.created_at = p then sc + 1 else 0)).2.1.length ≤ j + 2 :=
        ih j e1 e2 d1 d2 s1 s2 h1 h2 hr1 hr2 hl1 hl2 hceq
      simp only [List.length_cons]
      omega

/-- C5: Stuck termination — if two consecutive paged fetches of a Mode A
run return pages with the same oldest timestamp (the cursor fails to
advance), the run terminates within at most 2 additional fetch attempts;
in fact the second such fetch is already the last one. -/
theorem claim_C5_stuck_termination (fetch : Source) (i : Nat)
    (e1 e2 : FetchEvent) (d1 d2 : List RawSample) (s1 s2 : RawSample)
    (h1 : (download_all_data fetch).2.1[i]? = some e1)
    (h2 : (download_all_data fetch).2.1[i + 1]? = some e2)
    (hr1 : e1.response = Response.page d1) (hr2 : e2.response = Response.page d2)
    (hl1 : d1.getLast? = some s1) (hl2 : d2.getLast? = some s2)
    (heq : s1.created_at = s2.created_at) :
    (download_all_data fetch).2.1.length ≤ i + 2 := by
  cases hf : fetch none with
  | malformed =>
    have hdl : download_all_data fetch = ([], [], .initialMalformed) := by
      rw [download_all_data, hf]
    rw [hdl] at h1
    simp at h1
  | page data =>
    have hdl : download_all_data fetch = syncLoop fetch data none 1 0 := by
      rw [download_all_data, hf]
    rw [hdl] at h1 h2 ⊢
    exact syncLoop_consecutive_same_oldest fetch data none 1 0 i e1 e2 d1 d2 s1 s2
      h1 h2 hr1 hr2 hl1 hl2 heq

/-- Witness for C5: the repeating source issues two paged fetches whose
pages both end at `exS4`, and the run stops right there. -/
theorem claim_C5_witness :
    (download_all_data exStuckFetch).2.1[0]?
      = some ⟨"2025-10-05T00:00:00Z", 0, Response.page [exS4]⟩ ∧
    (download_all_data exStuckFetch).2.1[0 + 1]?
      = some ⟨"2025-10-04T00:00:00Z", 0, Response.page [exS4]⟩ ∧
    (download_all_data exStuckFetch).2.1.length ≤ 0 + 2 := by
  have htr : (download_all_data exStuckFetch).2.1
      = [⟨"2025-10-05T00:00:00Z", 0, Response.page [exS4]⟩,
         ⟨"2025-10-04T00:00:00Z", 0, Response.page [exS4]⟩] := by
    simp +decide [download_all_data, exStuckFetch, syncLoop, exS4, exS5, exSample, inWindow]
  refine ⟨by rw [htr]; rfl, by rw [htr]; rfl, ?_⟩
  exact claim_C5_stuck_termination exStuckFetch 0
    ⟨"2025-10-05T00:00:00Z", 0, Response.page [exS4]⟩
    ⟨"2025-10-04T00:00:00Z", 0, Response.page [exS4]⟩
    [exS4] [exS4] exS4 exS4
    (by rw [htr]; rfl) (by rw [htr]; rfl) rfl rfl rfl rfl rfl

/-! ### C4 -/

theorem exists_false_of_length_filter_lt {α : Type} {p : α → Bool} {l : List α}
    (h : (l.filter p).length < l.length) : ∃ x ∈ l, p x = false := by
  induction l with
  | nil => simp at h
  | cons y t ih =>
    cases hy : p y
    · exact ⟨y, List.mem_cons_self _ _, hy⟩
    · simp only [List.filter_cons, hy, if_true, List.length_cons] at h
      obtain ⟨x, hx, hpx⟩ := ih (by omega)
      exact ⟨x, List.mem_cons_of_mem _ hx, hpx⟩

theorem syncLoop_small_filtered (fetch : Source) (a : List RawSample)
    (p : Option String) (bc sc : Nat) :
    ∀ (i : Nat) (e : FetchEvent) (d : List RawSample),
      (syncLoop fetch a p bc sc).2.1[i]? = some e →
      e.response = Response.page d →
      d.filter (inWindow e.cursor) ≠ [] →
      (d.filter (inWindow e.cursor)).length < d.length →
      i + 1 = (syncLoop fetch a p bc sc).2.1.length ∧
      (syncLoop fetch a p bc sc).2.2 = ExitReason.touchedHorizon := by
  induction a, p, bc, sc using syncLoop.induct fetch with
  | case1 a p bc sc h =>
    intro i e d h1 hrespE hfneE hlenE
    have htr : (syncLoop fetch a p bc sc).2.1 = [] := by
      rw [syncLoop_eq_emptyData fetch a p bc sc h]
    rw [htr] at h1
    simp at h1
  | case2 a p bc sc ls h =>
    rename_i bt stuck' hcond
    intro i e d h1 hrespE hfneE hlenE
    have htr : (syncLoop fetch a p bc sc).2.1 = [] := by
      rw [syncLoop_eq_stuck fetch a p bc sc ls h hcond.1 ((stuckCond_iff _ _ _).mp hcond).2]
    rw [htr] at h1
    simp at h1
  | case3 a p bc sc ls h =>
    rename_i bt stuck' hstk hhor
    intro i e d h1 hrespE hfneE hlenE
    have htr : (syncLoop fetch a p bc sc).2.1 = [] := by
      rw [syncLoop_eq_horizon fetch a p bc sc ls h
        (fun hc => hstk ((stuckCond_iff _ _ _).mpr hc)) hhor]
    rw [htr] at h1
    simp at h1
  | case4 a p bc sc ls h =>
    rename_i bt stuck' hstk hhor resp hresp0
    intro i e d h1 hrespE hfneE hlenE
    have htr : (syncLoop fetch a p bc sc).2.1
        = [⟨ls.created_at, if some ls.created_at = p then sc + 1 else 0, .malformed⟩] := by
      rw [syncLoop_eq_malformed fetch a p bc sc ls h
        (fun hc => hstk ((stuckCond_iff _ _ _).mpr hc)) (bool_eq_false hhor) hresp0]
    rw [htr] at h1
    cases i with
    | zero =>
      rw [List.getElem?_cons_zero] at h1
      injection h1 with h1b
      subst h1b
      exact absurd (show Response.malformed = Response.page d from hrespE) (by simp)
    | succ j =>
      rw [List.getElem?_cons_succ] at h1
      simp at h1
  | case5 a p bc sc ls h =>
    rename_i bt stuck' hstk hhor resp hresp0
    intro i e d h1 hrespE hfneE hlenE
    have htr : (syncLoop fetch a p bc sc).2.1
        = [⟨ls.created_at, if some ls.created_at = p then sc + 1 else 0, .page []⟩] := by
      rw [syncLoop_eq_emptyPage fetch a p bc sc ls h
        (fun hc => hstk ((stuckCond_iff _ _ _).mpr hc)) (bool_eq_false hhor) hresp0]
    rw [htr] at h1
    cases i with
    | zero =>
      rw [List.getElem?_cons_zero] at h1
      injection h1 with h1b
      subst h1b
      have hd : ([] : List RawSample) = d := by
        have hx : Response.page [] = Response.page d := hrespE
        injection hx
      subst hd
      exact absurd rfl hfneE
    | succ j =>
      rw [List.getElem?_cons_succ] at h1
      simp at h1
  | case6 a p bc sc ls h =>
    rename_i bt stuck' hstk hhor resp data hresp0 hdne fb hfe
    intro i e d h1 hrespE hfneE hlenE
    have htr : (syncLoop fetch a p bc sc).2.1
        = [⟨ls.created_at, if some ls.created_at = p then sc + 1 else 0, .page data⟩] := by
      rw [syncLoop_eq_emptyFiltered fetch a p bc sc ls data h
        (fun hc => hstk ((stuckCond_iff _ _ _).mpr hc)) (bool_eq_false hhor) hresp0 hdne hfe]
    rw [htr] at h1
    cases i with
    | zero =>
      rw [List.getElem?_cons_zero] at h1
      injection h1 with h1b
      subst h1b
      have hd : data = d := by
        have hx : Response.page data = Response.page d := hrespE
        injection hx
      subst hd
      exact absurd hfe hfneE
    | succ j =>
      rw [List.getElem?_cons_succ] at h1
      simp at h1
  | case7 a p bc sc ls h =>
    rename_i bt stuck' hstk hhor resp data hresp0 hdne fb hfne hlen
    intro i e d h1 hrespE hfneE hlenE
    have htr : (syncLoop fetch a p bc sc).2.1
        = [⟨ls.created_at, if some ls.created_at = p then sc + 1 else 0, .page data⟩] := by
      rw [syncLoop_eq_touchedHorizon fetch a p bc sc ls data h
        (fun hc => hstk ((stuckCond_iff _ _ _).mpr hc)) (bool_eq_false hhor) hresp0 hfne hlen]
    have hex : (syncLoop fetch a p bc sc).2.2 = ExitReason.touchedHorizon := by
      rw [syncLoop_eq_touchedHorizon fetch a p bc sc ls data h
        (fun hc => hstk ((stuckCond_iff _ _ _).mpr hc)) (bool_eq_false hhor) hresp0 hfne hlen]
    rw [htr] at h1
    cases i with
    | zero =>
      rw [htr]
      exact ⟨rfl, hex⟩
    | succ j =>
      rw [List.getElem?_cons_succ] at h1
      simp at h1
  | case8 a p bc sc ls h =>
    rename_i bt stuck' hstk hhor resp data hresp0 hdne fb hfne hlen hsafety
    intro i e d h1 hrespE hfneE hlenE
    have htr : (syncLoop fetch a p bc sc).2.1
        = [⟨ls.created_at, if some ls.created_at = p then sc + 1 else 0, .page data⟩] := by
      rw [syncLoop_eq_safety fetch a p bc sc ls data h
        (fun hc => hstk ((stuckCond_iff _ _ _).mpr hc)) (bool_eq_false hhor) hresp0 hfne hlen
        hsafety]
    rw [htr] at h1
    cases i with
    | zero =>
      rw [List.getElem?_cons_zero] at h1
      injection h1 with h1b
      subst h1b
      have hd : data = d := by
        have hx : Response.page data = Response.page d := hrespE
        injection hx
      subst hd
      exact absurd hlenE hlen
    | succ j =>
      rw [List.getElem?_cons_succ] at h1
      simp at h1
  | case9 a p bc sc ls h =>
    rename_i bt stuck' hstk hhor resp data hresp0 hdne fb hfne ad hlen hsafety ih
    intro i e d h1 hrespE hfneE hlenE
    have htr : (syncLoop fetch a p bc sc).2.1
        = ⟨ls.created_at, if some ls.created_at = p then sc + 1 else 0, .page data⟩
          :: (syncLoop fetch (a ++ data.filter (inWindow ls.created_at))
              (some ls.created_at) (bc + 1)
              (if some ls.created_at = p then sc + 1 else 0)).2.1 := by
      rw [syncLoop_eq_continue fetch a p bc sc ls data h
        (fun hc => hstk ((stuckCond_iff _ _ _).mpr hc)) (bool_eq_false hhor) hresp0 hfne hlen
        hsafety]
    have hex : (syncLoop fetch a p bc sc).2.2
        = (syncLoop fetch (a ++ data.filter (inWindow ls.created_at))
            (some ls.created_at) (bc + 1)
            (if some ls.created_at = p then sc + 1 else 0)).2.2 := by
      rw [syncLoop_eq_continue fetch a p bc sc ls data h
        (fun hc => hstk ((stuckCond_iff _ _ _).mpr hc)) (bool_eq_false hhor) hresp0 hfne hlen
        hsafety]
    rw [htr] at h1
    cases i with
    | zero =>
      rw [List.getElem?_cons_zero] at h1
      injection h1 with h1b
      subst h1b
      have hd : data = d := by
        have hx : Response.page data = Response.page d := hrespE
        injection hx
      subst hd
      exact absurd hlenE hlen
    | succ j =>
      rw [List.getElem?_cons_succ] at h1
      have hrec : j + 1 = (syncLoop fetch (a ++ data.filter (inWindow ls.created_at))
          (some ls.created_at) (bc + 1)
          (if some ls.created_at = p then sc + 1 else 0)).2.1.length ∧
          (syncLoop fetch (a ++ data.filter (inWindow ls.created_at))
          (some ls.created_at) (bc + 1)
          (if some ls.created_at = p then sc + 1 else 0)).2.2
            = ExitReason.touchedHorizon :=
        ih j e d h1 hrespE hfneE hlenE
      rw [htr, hex]
      refine ⟨?_, hrec.2⟩
      simp only [List.length_cons]
      omega

/-- Counterexample for C4 as stated: a run of `download_all_data` against
`exC4Fetch` performs a paged fetch at cursor `2025-10-09...` whose filtered
batch is nonempty and strictly smaller than the raw page, yet no record of
that raw page lies below `EARLIEST_DATE` — the exclusion is due to the
strict upper bound (the page repeats the boundary record), not the lower
bound. -/
theorem claim_C4_counterexample :
    (download_all_data exC4Fetch).2.1[0]?
      = some ⟨"2025-10-09T00:00:00Z", 0, Response.page [exS09, exS08]⟩ ∧
    [exS09, exS08].filter (inWindow "2025-10-09T00:00:00Z") ≠ [] ∧
    ([exS09, exS08].filter (inWindow "2025-10-09T00:00:00Z")).length
      < [exS09, exS08].length ∧
    ¬ ∃ r ∈ [exS09, exS08], tsLt r.created_at EARLIEST_DATE = true := by
  have htr : (download_all_data exC4Fetch).2.1
      = [⟨"2025-10-09T00:00:00Z", 0, Response.page [exS09, exS08]⟩] := by
    simp +decide [download_all_data, exC4Fetch, syncLoop, exS08, exS09, exS10, exSample,
      inWindow]
  exact ⟨by rw [htr]; rfl, by decide, by decide, by decide⟩

/-- C4 (amended): In the Mode A pagination loop, whenever the (nonempty)
filtered batch is strictly smaller than the raw fetched page, some record
of the raw page was excluded by one of the filter bounds — its
`created_at` is below `EARLIEST_DATE` (lower bound) or not strictly below
the cursor (strict upper bound) — and the loop terminates immediately
after appending the filtered batch: that fetch is the last one and the
run exits through the `touchedHorizon` branch. -/
theorem claim_C4_amended (fetch : Source) (i : Nat) (e : FetchEvent)
    (d : List RawSample)
    (h1 : (download_all_data fetch).2.1[i]? = some e)
    (hresp : e.response = Response.page d)
    (hfne : d.filter (inWindow e.cursor) ≠ [])
    (hlen : (d.filter (inWindow e.cursor)).length < d.length) :
    (∃ r ∈ d, tsLt r.created_at EARLIEST_DATE = true
      ∨ tsLt r.created_at e.cursor = false) ∧
    i + 1 = (download_all_data fetch).2.1.length ∧
    (download_all_data fetch).2.2 = ExitReason.touchedHorizon := by
  obtain ⟨x, hx, hpx⟩ := exists_false_of_length_filter_lt hlen
  have hx2 : tsLt x.created_at EARLIEST_DATE = true
      ∨ tsLt x.created_at e.cursor = false := by
    cases ha : tsLe EARLIEST_DATE x.created_at
    · exact Or.inl (tsLe_false_iff.mp ha)
    · cases hb : tsLt x.created_at e.cursor
      · exact Or.inr rfl
      · exfalso
        rw [inWindow, ha, hb] at hpx
        simp at hpx
  refine ⟨⟨x, hx, hx2⟩, ?_⟩
  cases hf : fetch none with
  | malformed =>
    have hdl : download_all_data fetch = ([], [], .initialMalformed) := by
      rw [download_all_data, hf]
    rw [hdl] at h1
    simp at h1
  | page data =>
    have hdl : download_all_data fetch = syncLoop fetch data none 1 0 := by
      rw [download_all_data, hf]
    rw [hdl] at h1 ⊢
    exact syncLoop_small_filtered fetch data none 1 0 i e d h1 hresp hfne hlen

/-- Witness for C4 (amended) at the boundary-repeating source. -/
theorem claim_C4_amended_witness :
    (download_all_data exC4Fetch).2.1[0]?
      = some ⟨"2025-10-09T00:00:00Z", 0, Response.page [exS09, exS08]⟩ ∧
    0 + 1 = (download_all_data exC4Fetch).2.1.length ∧
    (download_all_data exC4Fetch).2.2 = ExitReason.touchedHorizon := by
  have htr : (download_all_data exC4Fetch).2.1
      = [⟨"2025-10-09T00:00:00Z", 0, Response.page [exS09, exS08]⟩] := by
    simp +decide [download_all_data, exC4Fetch, syncLoop, exS08, exS09, exS10, exSample,
      inWindow]
  have h := claim_C4_amended exC4Fetch 0
    ⟨"2025-10-09T00:00:00Z", 0, Response.page [exS09, exS08]⟩
    [exS09, exS08] (by rw [htr]; rfl) rfl (by decide) (by decide)
  exact ⟨by rw [htr]; rfl, h.2.1, h.2.2⟩

end SyncFirebase
